import Mathlib

/-!
Verification of the blog content pipeline of the `lradev-portfolio` repository.

The development shallowly embeds the logic of:
- the contentlayer document definition (computed `slug` and `readTime` fields,
  and the `rehype-pretty-code` `onVisitLine` hook),
- the blog listing page (sorting, search and category filtering),
- the blog detail page (slug lookup with a not-found fallback),
- the sitemap emitter,
- the contact form submission handler.

Strings are modelled with Lean `String` (a wrapper around `List Char`);
JavaScript string operations used by the code (`split(/\s+/)`, `replace`,
`toLowerCase`, `includes`) are embedded as executable functions below.
Timestamps are modelled as integers (milliseconds since the epoch, as in a
JavaScript `Date` value).
-/

/-- ASCII whitespace, the fragment of the JavaScript regexp class `\s`
exercised by Markdown bodies (space, tab, line feed, carriage return). -/
def isWsChar (c : Char) : Bool :=
  c == ' ' || c == '\t' || c == '\n' || c == '\r'

/-- Worker for `jsSplitWs`.  The state is `some acc` while scanning a token
(`acc` holds its characters in reverse) and `none` just after a whitespace
run.  Mirrors the behaviour of the JavaScript `String.prototype.split` with
separator `/\s+/`: maximal whitespace runs separate tokens, and a leading or
trailing run contributes an empty token. -/
def splitWsGo : List Char → Option (List Char) → List (List Char)
  | [], some acc => [acc.reverse]
  | [], none => [[]]
  | c :: cs, some acc =>
    if isWsChar c then acc.reverse :: splitWsGo cs none
    else splitWsGo cs (some (c :: acc))
  | c :: cs, none =>
    if isWsChar c then splitWsGo cs none
    else splitWsGo cs (some [c])

/-- Embedding of the JavaScript expression `s.split(/\s+/)`. -/
def jsSplitWs (s : String) : List String :=
  (splitWsGo s.data (some [])).map List.asString

/-- Embedding of `Math.ceil(a / b)` for natural `a` and positive natural `b`. -/
def jsMathCeilDiv (a b : Nat) : Nat :=
  (a + b - 1) / b

/-- The word counter used by the `readTime` computed field:
`post.body.raw.split(/\s+/).length`. -/
def wordCount (raw : String) : Nat :=
  (jsSplitWs raw).length

/-- The `readTime` computed field of the contentlayer `Post` document type:
`const wordsPerMinute = 200; const words = post.body.raw.split(/\s+/).length;
const minutes = Math.ceil(words / wordsPerMinute); return a string of the
form "<minutes> min"`. -/
def readTimeResolve (raw : String) : String :=
  toString (jsMathCeilDiv (wordCount raw) 200) ++ " min"

/-- Embedding of the JavaScript expression `s.replace(pat, '')` for a plain
string pattern: remove the first occurrence of `pat`, leave `s` unchanged when
`pat` does not occur. -/
def replaceFirstErase (pat : List Char) : List Char → List Char
  | [] => []
  | c :: cs =>
    if pat.isPrefixOf (c :: cs) then List.drop pat.length (c :: cs)
    else c :: replaceFirstErase pat cs

/-- The `slug` computed field of the contentlayer `Post` document type:
`post._raw.flattenedPath.replace('blog/', '')`. -/
def slugResolve (flattenedPath : String) : String :=
  (replaceFirstErase "blog/".data flattenedPath.data).asString

/-- A Markdown content file as contentlayer sees it: the flattened relative
path, the parsed front-matter fields of the `Post` document type (`title`,
`date`, `excerpt` required; `category`, `author`, `image` optional) and the raw
Markdown body. -/
structure RawDoc where
  flattenedPath : String
  title : String
  date : Int
  excerpt : String
  category : Option String
  author : Option String
  image : Option String
  bodyRaw : String
deriving DecidableEq

/-- A compiled `Post` document: the front-matter fields together with the
computed `slug` and `readTime` fields and the raw body. -/
structure Post where
  title : String
  date : Int
  excerpt : String
  category : Option String
  author : Option String
  image : Option String
  slug : String
  readTime : String
  bodyRaw : String
deriving DecidableEq

/-- Compilation of one content file into a `Post`, per the contentlayer
document definition: front-matter fields are copied and the two computed
fields are resolved. -/
def compile (doc : RawDoc) : Post :=
  { title := doc.title
    date := doc.date
    excerpt := doc.excerpt
    category := doc.category
    author := doc.author
    image := doc.image
    slug := slugResolve doc.flattenedPath
    readTime := readTimeResolve doc.bodyRaw
    bodyRaw := doc.bodyRaw }

/-- The descending-date comparison used to sort the blog listing.  The page
sorts with `compareDesc(new Date(a.date), new Date(b.date))`, which orders a
post with the later date first; under JavaScript's stable `Array.prototype.sort`
this is a stable merge sort with the relation "`a` may stay before `b` iff
`b.date <= a.date`". -/
def postDateDesc (a b : Post) : Bool :=
  decide (b.date ≤ a.date)

/-- The `sortedPosts` memo of the blog listing page:
`[...allPosts].sort((a, b) => compareDesc(new Date(a.date), new Date(b.date)))`,
embedded as a stable merge sort by descending date. -/
def sortedPosts (posts : List Post) : List Post :=
  posts.mergeSort postDateDesc

/-- Worker for `jsIncludes`: does `sub` occur as a contiguous run inside `s`? -/
def containsSub (sub : List Char) : List Char → Bool
  | [] => sub.isEmpty
  | c :: cs => sub.isPrefixOf (c :: cs) || containsSub sub cs

/-- Embedding of the JavaScript expression `s.includes(sub)`. -/
def jsIncludes (s sub : String) : Bool :=
  containsSub sub.data s.data

/-- Embedding of the JavaScript expression `s.toLowerCase()` (ASCII case
folding, the fragment exercised by the search filter). -/
def jsToLowerCase (s : String) : String :=
  ⟨s.data.map Char.toLower⟩

/-- The search half of the listing filter predicate:
`post.title.toLowerCase().includes(searchQuery.toLowerCase()) ||
 post.excerpt.toLowerCase().includes(searchQuery.toLowerCase())`. -/
def matchesSearch (post : Post) (searchQuery : String) : Bool :=
  jsIncludes (jsToLowerCase post.title) (jsToLowerCase searchQuery) ||
    jsIncludes (jsToLowerCase post.excerpt) (jsToLowerCase searchQuery)

/-- The category half of the listing filter predicate:
`selectedCategory === "all" || post.category === selectedCategory`.
A post with no `category` front-matter field only matches the sentinel. -/
def matchesCategory (post : Post) (selectedCategory : String) : Bool :=
  selectedCategory == "all" || post.category == some selectedCategory

/-- The `filteredPosts` memo of the blog listing page: the sorted collection
filtered by the conjunction of the search and category predicates. -/
def filteredPosts (posts : List Post) (searchQuery selectedCategory : String) :
    List Post :=
  (sortedPosts posts).filter fun post =>
    matchesSearch post searchQuery && matchesCategory post selectedCategory

/-- Outcome of rendering the blog detail page for a requested slug. -/
inductive PageResult where
  /-- The `notFound()` outcome: Next.js renders the standard 404 page. -/
  | notFoundPage : PageResult
  /-- The post page rendered for the matched post. -/
  | rendered (post : Post) : PageResult
deriving DecidableEq

/-- The body of `BlogPostPage`: look up the first post of the compiled
collection whose `slug` equals the requested slug
(`allPosts.find((post) => post.slug === slug)`); call `notFound()` when there
is none. -/
def blogPostPage (posts : List Post) (slug : String) : PageResult :=
  match posts.find? (fun post => post.slug == slug) with
  | some post => .rendered post
  | none => .notFoundPage

/-- One entry of the emitted sitemap: `{url, lastModified, changeFrequency,
priority}`. -/
structure SitemapEntry where
  url : String
  lastModified : Int
  changeFrequency : String
  priority : Rat
deriving DecidableEq

/-- The sitemap emitter of `src/app/sitemap.ts`.  The two static routes stamp
`new Date()` — the clock at the moment the function runs — into
`lastModified`, so the current time is an explicit argument `now` of the
embedding; each post entry uses `new Date(post.date)`. -/
def sitemap (posts : List Post) (now : Int) : List SitemapEntry :=
  let baseUrl := "https://lradev.app"
  let routes : List SitemapEntry :=
    [{ url := baseUrl, lastModified := now,
       changeFrequency := "monthly", priority := 1 },
     { url := baseUrl ++ "/blog", lastModified := now,
       changeFrequency := "weekly", priority := 0.9 }]
  let blogPosts : List SitemapEntry :=
    posts.map fun post =>
      { url := baseUrl ++ "/blog/" ++ post.slug, lastModified := post.date,
        changeFrequency := "monthly", priority := 0.8 }
  routes ++ blogPosts

/-- The calendar day (in a fixed UTC frame) of a millisecond timestamp:
floor division by the number of milliseconds in a day. -/
def calendarDay (t : Int) : Int :=
  t.fdiv 86400000

/-- A `hast` text node, the child shape the `onVisitLine` hook inserts. -/
structure HastText where
  value : String
deriving DecidableEq

/-- The `onVisitLine` hook of the `rehype-pretty-code` options: when a code
line has no children (a blank line), substitute a single text child
`{ type: 'text', value: ' ' }` so the line does not collapse in
`display: grid` mode. -/
def onVisitLine (children : List HastText) : List HastText :=
  if children.length = 0 then [{ value := " " }] else children

/-- Characters with no horizontal advance width (zero-width space, zero-width
non-joiner / joiner, word joiner, zero-width no-break space).  Used to state
what a "zero-width placeholder" would be. -/
def isZeroWidthChar (c : Char) : Bool :=
  c.val == 0x200B || c.val == 0x200C || c.val == 0x200D ||
    c.val == 0x2060 || c.val == 0xFEFF

/-- A text value that renders with zero width: every character is zero-width. -/
def isZeroWidthText (s : String) : Bool :=
  s.data.all isZeroWidthChar

/-- The contact form fields held in the `formData` React state of
`ContactSection`. -/
structure ContactFormData where
  name : String
  email : String
  message : String
deriving DecidableEq

/-- The React state of `ContactSection` touched by `handleSubmit`. -/
structure ContactFormState where
  formData : ContactFormData
  isSubmitting : Bool
  submitted : Bool
  error : String
deriving DecidableEq

/-- How the `fetch('/api/contact', ...)` call inside `handleSubmit` resolves:
either the server responded (with `response.ok` and the optional `error`
field of the decoded JSON body), or an exception was thrown (a network or
decoding failure; `some m` when the exception is an `Error` with message `m`,
`none` for a non-`Error` throw). -/
inductive FetchOutcome where
  | response (ok : Bool) (errorField : Option String) : FetchOutcome
  | thrown (message : Option String) : FetchOutcome
deriving DecidableEq

/-- Is the outcome a resolved response with `response.ok` true? -/
def isOkResponse : FetchOutcome → Bool
  | .response true _ => true
  | _ => false

/-- The `handleSubmit` handler of `ContactSection`, as a transformer of the
component state for a given fetch outcome.  It sets `isSubmitting` and clears
`error`, posts the form, then: on an ok response it marks `submitted` and
resets the three form fields; on a non-ok response it throws
`new Error(data.error || 'Failed to send message')`, which the catch block
stores in `error`; on a thrown exception the catch block stores the error
message (or the fallback text); `finally` clears `isSubmitting`. -/
def handleSubmit (s : ContactFormState) (outcome : FetchOutcome) :
    ContactFormState :=
  let s0 : ContactFormState := { s with isSubmitting := true, error := "" }
  let s1 : ContactFormState :=
    match outcome with
    | .response true _ =>
      { s0 with submitted := true, formData := ⟨"", "", ""⟩ }
    | .response false errorField =>
      { s0 with error :=
          match errorField with
          | some e => if e = "" then "Failed to send message" else e
          | none => "Failed to send message" }
    | .thrown message =>
      { s0 with error :=
          match message with
          | some m => m
          | none => "Failed to send message. Please try again." }
  { s1 with isSubmitting := false }

/-- Modelled from the spec: the `/api/contact` route handler itself is not
under `src/` — only its caller `ContactSection.tsx`, which posts
`{name, email, message}` to it, is.  Per the spec's contract the handler
accepts a JSON body `{name: string, email: string, message: string}`, forwards
it to an external message-delivery integration, answers 2xx with a
confirmation payload on success and non-2xx with `{error: string}` on failure,
and a submission with a missing required field fails without a delivery
attempt.  A request field is `none` when the key is missing from the payload. -/
structure ContactRequest where
  name : Option String
  email : Option String
  message : Option String
deriving DecidableEq

/-- Modelled from the spec: the result of the single best-effort call the
contact handler makes to the external delivery integration. -/
inductive DeliveryOutcome where
  | delivered : DeliveryOutcome
  | failed (reason : String) : DeliveryOutcome
deriving DecidableEq

/-- Modelled from the spec: the structured JSON result the contact handler
reports, with its HTTP status code. -/
structure ApiResponse where
  status : Nat
  confirmation : Option String
  error : Option String
deriving DecidableEq

/-- Modelled from the spec: the `/api/contact` handler.  Returns the response
together with a flag recording whether a delivery attempt succeeded.  A
payload missing a required field is rejected with a 400 and a descriptive
error, and nothing is forwarded; otherwise the delivery outcome decides
between a 2xx confirmation and a non-2xx `{error: string}` result. -/
def contactHandler (req : ContactRequest) (delivery : DeliveryOutcome) :
    ApiResponse × Bool :=
  match req.name, req.email, req.message with
  | some _, some _, some _ =>
    match delivery with
    | .delivered =>
      ({ status := 200, confirmation := some "Message sent", error := none },
        true)
    | .failed reason =>
      ({ status := 500, confirmation := none, error := some reason }, false)
  | _, _, _ =>
    ({ status := 400, confirmation := none,
       error := some "Missing required fields" }, false)

/-- The whitespace split worker never returns an empty list: every branch
either emits a token or recurses. -/
theorem splitWsGo_ne_nil (l : List Char) : ∀ st, splitWsGo l st ≠ [] := by
  induction l with
  | nil => intro st; cases st <;> simp [splitWsGo]
  | cons c cs ih =>
    intro st
    cases st with
    | none =>
      simp only [splitWsGo]
      split
      · exact ih none
      · exact ih _
    | some acc =>
      simp only [splitWsGo]
      split
      · simp
      · exact ih _

/-- The split of any string — the empty string included — has at least one
element, exactly as in JavaScript where `''.split(/\s+/)` is `['']`. -/
theorem one_le_wordCount (raw : String) : 1 ≤ wordCount raw := by
  have h : 0 < (splitWsGo raw.data (some [])).length :=
    List.length_pos.mpr (splitWsGo_ne_nil raw.data (some []))
  simpa [wordCount, jsSplitWs] using h

/-- Reading time is at least one minute as soon as there is one split token. -/
theorem one_le_ceil_words {a : Nat} (h : 1 ≤ a) : 1 ≤ jsMathCeilDiv a 200 := by
  unfold jsMathCeilDiv
  exact (Nat.one_le_div_iff (by norm_num)).mpr (by omega)

/-- The decimal digit writer of `Nat.repr` puts a nonzero character first
whenever the number written is positive and the fuel covers all its digits. -/
theorem toDigitsCore_head :
    ∀ (fuel n : Nat) (acc : List Char), 1 ≤ n → n < 10 ^ fuel →
      ∃ c cs, Nat.toDigitsCore 10 fuel n acc = c :: (cs ++ acc) ∧ c ≠ '0' := by
  intro fuel
  induction fuel with
  | zero => intro n acc h1 h2; simp at h2; omega
  | succ fuel ih =>
    intro n acc h1 h2
    by_cases h10 : n / 10 = 0
    · have hn : n < 10 := (Nat.div_eq_zero_iff (by norm_num)).mp h10
      refine ⟨Nat.digitChar (n % 10), [], ?_, ?_⟩
      · simp [Nat.toDigitsCore, h10]
      · have hmod : n % 10 = n := Nat.mod_eq_of_lt hn
        rw [hmod]
        interval_cases n <;> decide
    · have h1' : 1 ≤ n / 10 := Nat.one_le_iff_ne_zero.mpr h10
      have h2' : n / 10 < 10 ^ fuel := by
        rw [Nat.div_lt_iff_lt_mul (by norm_num)]
        calc n < 10 ^ (fuel + 1) := h2
          _ = 10 ^ fuel * 10 := by ring
      obtain ⟨c, cs, hc, hc0⟩ := ih (n / 10) (Nat.digitChar (n % 10) :: acc) h1' h2'
      refine ⟨c, cs ++ [Nat.digitChar (n % 10)], ?_, hc0⟩
      rw [Nat.toDigitsCore]
      simp only [h10, if_false]
      rw [hc]
      simp

/-- The decimal rendering of a positive natural starts with a nonzero digit. -/
theorem repr_head_ne_zero {m : Nat} (h : 1 ≤ m) :
    ∃ c cs, (Nat.repr m).data = c :: cs ∧ c ≠ '0' := by
  have hlt : m < 10 ^ (m + 1) :=
    lt_of_lt_of_le (Nat.lt_pow_self (by norm_num) m)
      (Nat.pow_le_pow_right (by norm_num) (Nat.le_succ m))
  obtain ⟨c, cs, hc, hc0⟩ := toDigitsCore_head (m + 1) m [] h hlt
  refine ⟨c, cs, ?_, hc0⟩
  show (Nat.toDigits 10 m).asString.data = c :: cs
  rw [Nat.toDigits, hc]
  simp [List.asString]

/-- The resolved reading time is never the string "0 min". -/
theorem readTime_ne_zero_min (raw : String) : readTimeResolve raw ≠ "0 min" := by
  intro heq
  have hm : 1 ≤ jsMathCeilDiv (wordCount raw) 200 :=
    one_le_ceil_words (one_le_wordCount raw)
  obtain ⟨c, cs, hc, hc0⟩ := repr_head_ne_zero hm
  have hds : (readTimeResolve raw).data = "0 min".data := by rw [heq]
  rw [readTimeResolve] at hds
  have happ : (toString (jsMathCeilDiv (wordCount raw) 200) ++ " min").data
      = (toString (jsMathCeilDiv (wordCount raw) 200)).data ++ " min".data := rfl
  rw [happ] at hds
  have htos : (toString (jsMathCeilDiv (wordCount raw) 200)).data
      = (Nat.repr (jsMathCeilDiv (wordCount raw) 200)).data := rfl
  rw [htos, hc] at hds
  have hc' : c = '0' := by
    have h0 : "0 min".data = '0' :: " min".data := rfl
    rw [h0] at hds
    have hh := congrArg List.head? hds
    simpa using hh
  exact hc0 hc'

/-- A 400-word Markdown body: 400 words of one letter separated by single
spaces, with no leading or trailing whitespace. -/
def body400 : String := (List.intercalate [' '] (List.replicate 400 ['w'])).asString

/-- The scenario content file of the spec: front-matter title "Hello",
date 2025-01-01T00:00:00 (as a millisecond timestamp), excerpt "Hi", and a
body of exactly 400 words. -/
def doc400 : RawDoc :=
  { flattenedPath := "blog/hello", title := "Hello", date := 1735689600000,
    excerpt := "Hi", category := none, author := none, image := none,
    bodyRaw := body400 }

/-- C1: for every compiled Post, the derived `readTime` equals
`ceil(wordCount / 200)` formatted as "<N> min", where the word count is the
one the compiler computes — the length of the whitespace split of the raw
body (which is what makes the empty body count 1, not 0); it is never
"0 min" for any body, including an empty one; and a post whose body holds
exactly 400 split words has readTime "2 min". -/
theorem c1_readTime_spec (doc : RawDoc) :
    (compile doc).readTime
        = toString (jsMathCeilDiv (wordCount doc.bodyRaw) 200) ++ " min"
      ∧ (compile doc).readTime ≠ "0 min"
      ∧ (wordCount doc.bodyRaw = 400 → (compile doc).readTime = "2 min") := by
  refine ⟨rfl, readTime_ne_zero_min doc.bodyRaw, ?_⟩
  intro h400
  show readTimeResolve doc.bodyRaw = "2 min"
  rw [readTimeResolve, h400]
  decide

set_option maxRecDepth 10000 in
/-- Witness for C1 at the spec's scenario file: its 400-word body compiles to
a Post whose readTime is exactly "2 min". -/
theorem c1_readTime_witness :
    wordCount doc400.bodyRaw = 400 ∧ (compile doc400).readTime = "2 min" :=
  ⟨by decide, (c1_readTime_spec doc400).2.2 (by decide)⟩

/-- A list is a `isPrefixOf`-prefix of itself followed by anything. -/
theorem isPrefixOf_append_self (p r : List Char) : p.isPrefixOf (p ++ r) = true := by
  induction p with
  | nil => simp
  | cons a as ih => simp [List.isPrefixOf, ih]

/-- Erasing the first occurrence of a nonempty pattern from a string that
starts with it strips exactly that leading pattern. -/
theorem replaceFirstErase_append (p r : List Char) (hp : p ≠ []) :
    replaceFirstErase p (p ++ r) = r := by
  match p, hp with
  | a :: as, _ =>
    show replaceFirstErase (a :: as) (a :: (as ++ r)) = r
    rw [replaceFirstErase]
    have hpre : (a :: as).isPrefixOf (a :: (as ++ r)) = true :=
      isPrefixOf_append_self (a :: as) r
    rw [if_pos hpre]
    show List.drop (as.length + 1) (a :: (as ++ r)) = r
    simp [List.drop_left]

/-- The slug of a path under the content root is the path with the root
prefix stripped. -/
theorem slugResolve_strip (base : String) : slugResolve ("blog/" ++ base) = base := by
  show (replaceFirstErase "blog/".data ("blog/" ++ base).data).asString = base
  have hdata : ("blog/" ++ base).data = "blog/".data ++ base.data := rfl
  rw [hdata, replaceFirstErase_append _ _ (by decide)]
  rfl

/-- C5: the compiled slug is derived deterministically from the file's
relative path by stripping the content-root prefix "blog/"; over any
collection of distinct content file paths directly under the root, the slugs
are pairwise distinct, and none holds a path-separator character. -/
theorem c5_slug_spec :
    (∀ base : String, slugResolve ("blog/" ++ base) = base)
      ∧ ∀ (paths : List String),
          (∀ fp ∈ paths, ∃ base : String,
              fp = "blog/" ++ base ∧ ∀ c ∈ base.data, c ≠ '/') →
          paths.Nodup →
          (paths.map slugResolve).Nodup
            ∧ ∀ slug ∈ paths.map slugResolve, ∀ c ∈ slug.data, c ≠ '/' := by
  refine ⟨slugResolve_strip, ?_⟩
  intro paths hshape hnd
  constructor
  · refine hnd.map_on ?_
    intro x hx y hy hxy
    obtain ⟨b1, rfl, _⟩ := hshape x hx
    obtain ⟨b2, rfl, _⟩ := hshape y hy
    rw [slugResolve_strip, slugResolve_strip] at hxy
    rw [hxy]
  · intro slug hs
    obtain ⟨fp, hfp, rfl⟩ := List.mem_map.mp hs
    obtain ⟨base, rfl, hbase⟩ := hshape fp hfp
    rw [slugResolve_strip]
    exact hbase

/-- The flattened paths of the repository's three content files under
`src/content/blog`. -/
def contentPaths : List String :=
  ["blog/architetture-code-moderne-2025",
   "blog/django-clean-architecture-views-tasks-models",
   "blog/pydantic-validazione-dati-python"]

/-- Witness for C5 at the repository's own content files: their compiled
slugs are pairwise distinct and separator-free. -/
theorem c5_slug_witness :
    (contentPaths.map slugResolve).Nodup
      ∧ ∀ slug ∈ contentPaths.map slugResolve, ∀ c ∈ slug.data, c ≠ '/' := by
  refine c5_slug_spec.2 contentPaths ?_ (by decide)
  intro fp hfp
  simp only [contentPaths, List.mem_cons, List.not_mem_nil, or_false] at hfp
  rcases hfp with rfl | rfl | rfl
  · exact ⟨"architetture-code-moderne-2025", by decide, by decide⟩
  · exact ⟨"django-clean-architecture-views-tasks-models", by decide, by decide⟩
  · exact ⟨"pydantic-validazione-dati-python", by decide, by decide⟩

/-- The descending-date comparison is transitive. -/
theorem postDateDesc_trans (a b c : Post) :
    postDateDesc a b → postDateDesc b c → postDateDesc a c := by
  simp only [postDateDesc, decide_eq_true_eq]
  exact fun hab hbc => le_trans hbc hab

/-- The descending-date comparison is total. -/
theorem postDateDesc_total (a b : Post) : postDateDesc a b || postDateDesc b a := by
  simp only [postDateDesc, Bool.or_eq_true, decide_eq_true_eq]
  exact le_total b.date a.date

/-- The sorted listing is pairwise descending by date. -/
theorem sortedPosts_pairwise (posts : List Post) :
    (sortedPosts posts).Pairwise fun a b => b.date ≤ a.date := by
  have h := List.sorted_mergeSort postDateDesc_trans postDateDesc_total posts
  exact h.imp fun hab => by simpa [postDateDesc] using hab

/-- The sorted listing is a permutation of the compiled collection. -/
theorem sortedPosts_perm (posts : List Post) : (sortedPosts posts).Perm posts :=
  List.mergeSort_perm posts postDateDesc

/-- C4: the default listing order is descending by date — it is a permutation
of the collection in which any entry with a strictly larger date sits strictly
earlier — and the sort is stable: two posts with equal dates that appear in a
given discovery order keep that order in the sorted listing. -/
theorem c4_listing_sort (posts : List Post) :
    (sortedPosts posts).Perm posts
      ∧ (∀ (i j : Nat) (hi : i < (sortedPosts posts).length)
            (hj : j < (sortedPosts posts).length),
            ((sortedPosts posts).get ⟨j, hj⟩).date
                < ((sortedPosts posts).get ⟨i, hi⟩).date → i < j)
      ∧ (∀ a b : Post, a.date = b.date → [a, b].Sublist posts →
            [a, b].Sublist (sortedPosts posts)) := by
  refine ⟨sortedPosts_perm posts, ?_, ?_⟩
  · intro i j hi hj hlt
    have hp := sortedPosts_pairwise posts
    rw [List.pairwise_iff_get] at hp
    by_contra hnot
    rcases Nat.lt_or_ge j i with hji | hij
    · exact absurd hlt (not_lt.mpr (hp ⟨j, hj⟩ ⟨i, hi⟩ hji))
    · have hij' : i = j := by omega
      subst hij'
      exact lt_irrefl _ hlt
  · intro a b hdate hsub
    have hpw : [a, b].Pairwise fun x y => postDateDesc x y = true := by
      simp [List.pairwise_cons, postDateDesc, hdate.symm.le]
    exact List.sublist_mergeSort postDateDesc_trans postDateDesc_total hpw hsub

/-- A minimal concrete post used to instantiate the listing theorems. -/
def mkPost (t : String) (d : Int) : Post :=
  { title := t, date := d, excerpt := "", category := none, author := none,
    image := none, slug := t, readTime := "1 min", bodyRaw := "" }

/-- Witness for C4: two concrete posts with equal dates keep their discovery
order through the sort. -/
theorem c4_listing_sort_witness :
    [mkPost "a" 5, mkPost "b" 5].Sublist
      (sortedPosts [mkPost "a" 5, mkPost "b" 5]) :=
  (c4_listing_sort _).2.2 _ _ rfl (List.Sublist.refl _)

/-- The empty pattern occurs in every string, as with JavaScript `includes`. -/
theorem containsSub_nil (l : List Char) : containsSub [] l = true := by
  induction l with
  | nil => rfl
  | cons c cs ih => simp [containsSub, ih]

/-- JavaScript `s.includes('')` is true for every `s`. -/
theorem jsIncludes_empty (s : String) : jsIncludes s "" = true :=
  containsSub_nil s.data

/-- The empty search string matches every post. -/
theorem matchesSearch_empty (p : Post) : matchesSearch p "" = true := by
  have h : jsToLowerCase "" = "" := rfl
  simp [matchesSearch, h, jsIncludes_empty]

/-- C3: a post is in the filtered listing iff it is in the collection and
(the search string is empty, or its lowercase title or lowercase excerpt
contains the lowercase search string) and (the selected category is the
sentinel "all", or its category equals the selection); with the sentinel and
the empty search string the filtered listing is the whole collection in
descending date order. -/
theorem c3_listing_filter (posts : List Post) (s c : String) (p : Post) :
    (p ∈ filteredPosts posts s c ↔
        p ∈ posts
          ∧ (s = "" ∨ jsIncludes (jsToLowerCase p.title) (jsToLowerCase s) = true
              ∨ jsIncludes (jsToLowerCase p.excerpt) (jsToLowerCase s) = true)
          ∧ (c = "all" ∨ p.category = some c))
      ∧ filteredPosts posts "" "all" = sortedPosts posts
      ∧ (filteredPosts posts "" "all").Pairwise (fun a b => b.date ≤ a.date)
      ∧ (filteredPosts posts "" "all").Perm posts := by
  have h2 : filteredPosts posts "" "all" = sortedPosts posts := by
    refine List.filter_eq_self.mpr ?_
    intro q hq
    simp [Bool.and_eq_true, matchesSearch_empty q, matchesCategory]
  refine ⟨?_, h2, h2 ▸ sortedPosts_pairwise posts, h2 ▸ sortedPosts_perm posts⟩
  rw [filteredPosts, List.mem_filter, Bool.and_eq_true]
  constructor
  · rintro ⟨hmem, hs, hc⟩
    refine ⟨(sortedPosts_perm posts).mem_iff.mp hmem, ?_, ?_⟩
    · simp only [matchesSearch, Bool.or_eq_true] at hs
      rcases hs with h | h
      · exact Or.inr (Or.inl h)
      · exact Or.inr (Or.inr h)
    · simp only [matchesCategory, Bool.or_eq_true, beq_iff_eq] at hc
      rcases hc with h | h
      · exact Or.inl h
      · exact Or.inr h
  · rintro ⟨hmem, hsearch, hcat⟩
    refine ⟨(sortedPosts_perm posts).mem_iff.mpr hmem, ?_, ?_⟩
    · rcases hsearch with rfl | h | h
      · exact matchesSearch_empty p
      · simp [matchesSearch, h]
      · simp [matchesSearch, h]
    · rcases hcat with rfl | h
      · simp [matchesCategory]
      · simp [matchesCategory, h]

/-- Witness for C3: with category "all" and the empty search string a
concrete post is included. -/
theorem c3_listing_filter_witness :
    mkPost "a" 1 ∈ filteredPosts [mkPost "a" 1] "" "all" :=
  (c3_listing_filter [mkPost "a" 1] "" "all" (mkPost "a" 1)).1.mpr
    ⟨by decide, Or.inl rfl, Or.inl rfl⟩

/-- The first-match behaviour of `find?` over an explicit decomposition. -/
theorem find?_append_first {α : Type} (f : α → Bool) (l1 l2 : List α) (a : α)
    (ha : f a = true) (hl1 : ∀ q ∈ l1, f q = false) :
    (l1 ++ a :: l2).find? f = some a := by
  induction l1 with
  | nil => simp [List.find?_cons, ha]
  | cons q l1 ih =>
    have hq : f q = false := hl1 q (by simp)
    simp only [List.cons_append, List.find?_cons, hq]
    exact ih fun r hr => hl1 r (by simp [hr])

/-- C6: the detail view resolves a slug to the first post of the collection
whose slug matches exactly; when no post matches it renders the standard
not-found outcome, and a rendered post always comes from the collection with
an exactly matching slug. -/
theorem c6_detail_lookup (posts : List Post) (slug : String) :
    ((∀ p ∈ posts, p.slug ≠ slug) → blogPostPage posts slug = .notFoundPage)
      ∧ (∀ (l1 l2 : List Post) (p : Post),
            posts = l1 ++ p :: l2 → p.slug = slug →
            (∀ q ∈ l1, q.slug ≠ slug) →
            blogPostPage posts slug = .rendered p)
      ∧ (∀ p : Post, blogPostPage posts slug = .rendered p →
            p ∈ posts ∧ p.slug = slug) := by
  refine ⟨?_, ?_, ?_⟩
  · intro h
    have hnone : posts.find? (fun post => post.slug == slug) = none :=
      List.find?_eq_none.mpr fun x hx => by
        simp only [beq_iff_eq]
        exact h x hx
    rw [blogPostPage, hnone]
  · intro l1 l2 p heq hp hl1
    subst heq
    have hsome : (l1 ++ p :: l2).find? (fun post => post.slug == slug) = some p :=
      find?_append_first _ l1 l2 p (by simp [hp]) fun q hq => by
        simp only [beq_eq_false_iff_ne, ne_eq]
        exact hl1 q hq
    rw [blogPostPage, hsome]
  · intro p hp
    rw [blogPostPage] at hp
    cases hfind : posts.find? (fun post => post.slug == slug) with
    | none => rw [hfind] at hp; cases hp
    | some q =>
      rw [hfind] at hp
      cases hp
      refine ⟨List.mem_of_find?_eq_some hfind, ?_⟩
      have hq := List.find?_some hfind
      simpa using hq

/-- Witness for C6: looking up any slug in the empty collection renders the
not-found outcome. -/
theorem c6_detail_lookup_witness :
    blogPostPage [] "missing-slug" = .notFoundPage :=
  (c6_detail_lookup [] "missing-slug").1 (by simp)

/-- C2 as stated is refuted: the emitter is not a function of the Post
collection alone — the two static entries stamp the wall clock, so two runs
over the same (empty) collection at clock instants 0 and 1 differ. -/
theorem c2_sitemap_counterexample : ¬ sitemap [] 0 = sitemap [] 1 := by
  decide

/-- C2 amended: given the same collection and the same clock instant the
emitted list is identical, and it consists of exactly the home entry, the
blog listing entry (both stamped with the clock) and one entry per post, in
order, whose lastModified is that post's date. -/
theorem c2_sitemap_deterministic (posts : List Post) (n1 n2 : Int)
    (h : n1 = n2) :
    sitemap posts n1 = sitemap posts n2
      ∧ (sitemap posts n1).length = 2 + posts.length
      ∧ (sitemap posts n1)[0]? =
          some (SitemapEntry.mk "https://lradev.app" n1 "monthly" 1)
      ∧ (sitemap posts n1)[1]? =
          some (SitemapEntry.mk "https://lradev.app/blog" n1 "weekly" 0.9)
      ∧ ∀ i : Nat, (sitemap posts n1)[2 + i]? =
          posts[i]?.map fun p =>
            SitemapEntry.mk ("https://lradev.app/blog/" ++ p.slug) p.date
              "monthly" 0.8 := by
  subst h
  have hurl : "https://lradev.app" ++ "/blog" = "https://lradev.app/blog" := by
    decide
  refine ⟨rfl, ?_, ?_, ?_, ?_⟩
  · simp only [sitemap, List.length_append, List.length_map, List.length_cons,
      List.length_nil]
  · rfl
  · unfold sitemap
    simp only [List.cons_append, List.getElem?_cons_succ, List.getElem?_cons_zero]
    rw [hurl]
  · intro i
    show (_ :: _ :: posts.map _)[2 + i]? = _
    rw [show 2 + i = i + 1 + 1 from by omega]
    simp [List.getElem?_map]

/-- Witness for C2 amended, at the empty collection and one clock instant. -/
theorem c2_sitemap_deterministic_witness :
    (sitemap [] 7).length = 2 + ([] : List Post).length :=
  (c2_sitemap_deterministic [] 7 7 rfl).2.1

/-- C8: every compiled post yields a sitemap entry at that post's URL whose
lastModified equals — exactly, hence to calendar-day precision — the date
field parsed from the file's front matter. -/
theorem c8_sitemap_roundtrip (files : List RawDoc) (now : Int) (f : RawDoc)
    (hf : f ∈ files) :
    ∃ e ∈ sitemap (files.map compile) now,
      e.url = "https://lradev.app/blog/" ++ (compile f).slug
        ∧ e.lastModified = f.date
        ∧ calendarDay e.lastModified = calendarDay f.date := by
  refine ⟨{ url := "https://lradev.app/blog/" ++ (compile f).slug,
            lastModified := (compile f).date, changeFrequency := "monthly",
            priority := 0.8 }, ?_, rfl, rfl, rfl⟩
  simp only [sitemap, List.mem_append, List.mem_map]
  right
  exact ⟨compile f, ⟨f, hf, rfl⟩, rfl⟩

/-- Witness for C8 at the concrete scenario file. -/
theorem c8_sitemap_roundtrip_witness :
    ∃ e ∈ sitemap ([doc400].map compile) 0,
      e.url = "https://lradev.app/blog/" ++ (compile doc400).slug
        ∧ e.lastModified = doc400.date
        ∧ calendarDay e.lastModified = calendarDay doc400.date :=
  c8_sitemap_roundtrip [doc400] 0 doc400 (List.mem_singleton.mpr rfl)

/-- C7 as stated is refuted: the placeholder substituted for a blank code
line is a single ASCII space, which is not a zero-width text. -/
theorem c7_counterexample :
    ¬ ∀ t : HastText, onVisitLine [] = [t] → isZeroWidthText t.value = true := by
  intro h
  have hz := h { value := " " } rfl
  exact absurd hz (by decide)

/-- C7 amended: the hook substitutes a single-space text placeholder for a
blank line, so no rendered code line has empty content. -/
theorem c7_onVisitLine_nonempty (children : List HastText) :
    onVisitLine children ≠ []
      ∧ (children = [] → onVisitLine children = [{ value := " " }]) := by
  constructor
  · by_cases h : children.length = 0
    · simp [onVisitLine, h]
    · simp only [onVisitLine, h, if_false]
      intro hnil
      exact h (by simp [hnil])
  · intro h
    subst h
    rfl

/-- Witness for C7 amended at the blank line itself. -/
theorem c7_onVisitLine_witness :
    onVisitLine [] = [{ value := " " }] :=
  (c7_onVisitLine_nonempty []).2 rfl

/-- C9: for every contact payload whose email field is missing, the handler
answers with a non-2xx status carrying a nonempty error string, and no
delivery attempt succeeds silently. -/
theorem c9_contact_missing_email (req : ContactRequest)
    (delivery : DeliveryOutcome) (h : req.email = none) :
    ¬ (200 ≤ (contactHandler req delivery).1.status
        ∧ (contactHandler req delivery).1.status < 300)
      ∧ (∃ e, (contactHandler req delivery).1.error = some e ∧ e ≠ "")
      ∧ (contactHandler req delivery).2 = false := by
  obtain ⟨n, e, m⟩ := req
  simp only at h
  subst h
  cases n <;> cases m <;>
    exact ⟨by simp [contactHandler],
      ⟨"Missing required fields", by simp [contactHandler], by decide⟩,
      by simp [contactHandler]⟩

/-- Witness for C9 at a concrete payload with the email key absent. -/
theorem c9_contact_missing_email_witness :
    ¬ (200 ≤ (contactHandler ⟨some "Ada", none, some "Hi"⟩ .delivered).1.status
        ∧ (contactHandler ⟨some "Ada", none, some "Hi"⟩ .delivered).1.status < 300)
      ∧ (∃ e, (contactHandler ⟨some "Ada", none, some "Hi"⟩ .delivered).1.error
            = some e ∧ e ≠ "")
      ∧ (contactHandler ⟨some "Ada", none, some "Hi"⟩ .delivered).2 = false :=
  c9_contact_missing_email ⟨some "Ada", none, some "Hi"⟩ .delivered rfl

/-- C10: the contact submission is atomic with respect to the form state —
on any failed submission the whole state is the old one with only the error
message replaced (and the in-flight flag lowered), so name, email, message
and the submitted flag are untouched; on a successful submission the three
form fields are reset to the empty string and the submitted flag raised. -/
theorem c10_submit_frame (s : ContactFormState) (outcome : FetchOutcome) :
    (isOkResponse outcome = false →
        handleSubmit s outcome
          = { s with error := (handleSubmit s outcome).error,
                     isSubmitting := false })
      ∧ (isOkResponse outcome = true →
        handleSubmit s outcome
          = { s with formData := ⟨"", "", ""⟩, submitted := true,
                     error := "", isSubmitting := false }) := by
  cases outcome with
  | response ok errorField =>
    cases ok
    · exact ⟨fun _ => rfl, fun h => by simp [isOkResponse] at h⟩
    · exact ⟨fun h => by simp [isOkResponse] at h, fun _ => rfl⟩
  | thrown message =>
    exact ⟨fun _ => rfl, fun h => by simp [isOkResponse] at h⟩

/-- Witness for C10: a concrete failed submission keeps the entered fields
and only stores the error message; a concrete successful one resets them. -/
theorem c10_submit_frame_witness :
    handleSubmit ⟨⟨"n", "e", "m"⟩, false, false, ""⟩ (.thrown (some "boom"))
        = { (⟨⟨"n", "e", "m"⟩, false, false, ""⟩ : ContactFormState) with
            error := (handleSubmit ⟨⟨"n", "e", "m"⟩, false, false, ""⟩
              (.thrown (some "boom"))).error,
            isSubmitting := false }
      ∧ handleSubmit ⟨⟨"n", "e", "m"⟩, false, false, ""⟩ (.response true none)
        = { (⟨⟨"n", "e", "m"⟩, false, false, ""⟩ : ContactFormState) with
            formData := ⟨"", "", ""⟩, submitted := true, error := "",
            isSubmitting := false } :=
  ⟨(c10_submit_frame ⟨⟨"n", "e", "m"⟩, false, false, ""⟩
      (.thrown (some "boom"))).1 rfl,
    (c10_submit_frame ⟨⟨"n", "e", "m"⟩, false, false, ""⟩
      (.response true none)).2 rfl⟩
